import Mathlib

/-
Verification of the go-payment-api repository against its specification.

The Go source is shallowly embedded in Lean: pure functions become Lean
functions, the in-place mutation of model objects becomes explicit state
passing, the database becomes an explicit record of rows threaded through
the service code, and `float64` monetary amounts become exact rationals
(the spec mandates decimal semantics and no claim here depends on binary
floating point rounding).  Fallible Go code returning `error` becomes
`Except` with one error constructor per distinct `fmt.Errorf` site.
-/

namespace PaymentApi

/-!
## Transaction model and status state machine

Embedded from `internal/models/transaction.go`.  The Go `Transaction`
struct's fields are kept with their source names (Lean forbids `Type`
as a field name, so that one field is `type'`).  `time.Time` is modelled
as an integer timestamp; nothing below depends on its structure.
-/

def StatusPending : String := "pending"

def StatusCompleted : String := "completed"

def StatusFailed : String := "failed"

def StatusCancelled : String := "cancelled"

structure Transaction where
  ID : Int
  FromUserID : Option Int
  ToUserID : Option Int
  Amount : Rat
  type' : String
  Status : String
  Description : String
  CreatedAt : Int
deriving Repr, DecidableEq

/-- One error constructor per `fmt.Errorf` site of the state-machine code. -/
inductive StatusError where
  | invalidStatus (s : String)
  | invalidCurrent (s : String)
  | sameStatus (s : String)
  | notAllowed (cur target : String)
deriving Repr, DecidableEq

/-- The `validStatuses` map of `ValidateStatus` (membership test only). -/
def validStatuses : List String :=
  [StatusPending, StatusCompleted, StatusFailed, StatusCancelled]

/-- `(t *Transaction) ValidateStatus()` from `internal/models/transaction.go`. -/
def ValidateStatus (t : Transaction) : Except StatusError Unit :=
  if t.Status ∈ validStatuses then .ok () else .error (.invalidStatus t.Status)

/-- The `transitions` map literal of `CanTransition`; `none` models a key
absent from the Go map. -/
def transitions (s : String) : Option (List String) :=
  if s = StatusPending then some [StatusCompleted, StatusFailed, StatusCancelled]
  else if s = StatusCompleted then some []
  else if s = StatusFailed then some []
  else if s = StatusCancelled then some []
  else none

/-- `(t *Transaction) CanTransition(newStatus)`: validate the new status via a
temporary transaction (as the Go code does), look the current status up in the
transition map, reject same-state transitions, then check membership in the
allowed list. -/
def CanTransition (t : Transaction) (newStatus : String) : Except StatusError Unit :=
  match ValidateStatus { t with Status := newStatus } with
  | .error e => .error e
  | .ok _ =>
    match transitions t.Status with
    | none => .error (.invalidCurrent t.Status)
    | some allowed =>
      if t.Status = newStatus then .error (.sameStatus newStatus)
      else if newStatus ∈ allowed then .ok ()
      else .error (.notAllowed t.Status newStatus)

/-- `(t *Transaction) SetStatus(newStatus)`.  The Go method mutates the
receiver in place; the embedding returns the post-state of the object
together with the returned error, mirroring that the mutation happens only
after `CanTransition` succeeds. -/
def SetStatus (t : Transaction) (newStatus : String) : Transaction × Except StatusError Unit :=
  match CanTransition t newStatus with
  | .error e => (t, .error e)
  | .ok _ => ({ t with Status := newStatus }, .ok ())

theorem canTransition_ok_iff (t : Transaction) (s : String) :
    CanTransition t s = .ok () ↔
      t.Status = StatusPending ∧
        (s = StatusCompleted ∨ s = StatusFailed ∨ s = StatusCancelled) := by
  unfold CanTransition ValidateStatus transitions validStatuses
  unfold StatusPending StatusCompleted StatusFailed StatusCancelled
  by_cases h1 : t.Status = "pending" <;>
    by_cases h2 : t.Status = "completed" <;>
      by_cases h3 : t.Status = "failed" <;>
        by_cases h4 : t.Status = "cancelled" <;>
          by_cases g1 : s = "pending" <;>
            by_cases g2 : s = "completed" <;>
              by_cases g3 : s = "failed" <;>
                by_cases g4 : s = "cancelled" <;>
                  simp_all

/-- Concrete pending transaction used by witnesses. -/
def txPending : Transaction :=
  { ID := 1, FromUserID := none, ToUserID := some 2, Amount := 5,
    type' := "credit", Status := "pending", Description := "", CreatedAt := 0 }

/-- Concrete completed (terminal) transaction used by witnesses. -/
def txCompleted : Transaction :=
  { txPending with Status := "completed" }

/-- C4: `SetStatus` succeeds exactly when the current status is `pending` and
the target is one of `completed`, `failed`, `cancelled`; every same-state
transition is rejected with an error, and every transition out of a terminal
state (`completed`, `failed`, `cancelled`) is rejected with an error. -/
theorem setStatus_characterization (t : Transaction) (s : String) :
    ((SetStatus t s).2 = .ok () ↔
      t.Status = StatusPending ∧
        (s = StatusCompleted ∨ s = StatusFailed ∨ s = StatusCancelled))
    ∧ (s = t.Status → ∃ e, (SetStatus t s).2 = .error e)
    ∧ ((t.Status = StatusCompleted ∨ t.Status = StatusFailed ∨ t.Status = StatusCancelled) →
        ∃ e, (SetStatus t s).2 = .error e) := by
  refine ⟨?_, ?_, ?_⟩
  · rw [← canTransition_ok_iff]
    unfold SetStatus
    cases h : CanTransition t s <;> simp [h]
  · intro heq
    unfold SetStatus
    cases h : CanTransition t s with
    | error e => exact ⟨e, rfl⟩
    | ok _ =>
      exfalso
      have := (canTransition_ok_iff t s).mp h
      have hne : t.Status ≠ s := by
        rcases this.2 with h' | h' | h' <;>
          simp_all [StatusPending, StatusCompleted, StatusFailed, StatusCancelled]
      exact hne heq.symm
  · intro hterm
    unfold SetStatus
    cases h : CanTransition t s with
    | error e => exact ⟨e, rfl⟩
    | ok _ =>
      exfalso
      have := (canTransition_ok_iff t s).mp h
      rcases hterm with h' | h' | h' <;>
        simp_all [StatusPending, StatusCompleted, StatusFailed, StatusCancelled]

/-- Witness for C4 at concrete inputs: a pending transaction moves to
`completed`, a same-state transition errors, and a terminal state cannot be
left. -/
theorem setStatus_characterization_witness :
    (SetStatus txPending "completed").2 = .ok ()
    ∧ (∃ e, (SetStatus txPending "pending").2 = .error e)
    ∧ (∃ e, (SetStatus txCompleted "failed").2 = .error e) := by
  refine ⟨?_, ?_, ?_⟩
  · exact (setStatus_characterization txPending "completed").1.mpr
      ⟨rfl, Or.inl rfl⟩
  · exact (setStatus_characterization txPending "pending").2.1 rfl
  · exact (setStatus_characterization txCompleted "failed").2.2 (Or.inl rfl)

/-- C10: if `SetStatus` returns an error the transaction object is left
completely unchanged, and on success only the `Status` field changes while
every other field keeps its previous value. -/
theorem setStatus_frame (t : Transaction) (s : String) :
    ((SetStatus t s).2 ≠ .ok () → (SetStatus t s).1 = t)
    ∧ ((SetStatus t s).2 = .ok () →
        (SetStatus t s).1.Status = s
        ∧ (SetStatus t s).1.ID = t.ID
        ∧ (SetStatus t s).1.FromUserID = t.FromUserID
        ∧ (SetStatus t s).1.ToUserID = t.ToUserID
        ∧ (SetStatus t s).1.Amount = t.Amount
        ∧ (SetStatus t s).1.type' = t.type'
        ∧ (SetStatus t s).1.Description = t.Description
        ∧ (SetStatus t s).1.CreatedAt = t.CreatedAt) := by
  unfold SetStatus
  cases h : CanTransition t s <;> simp

/-- Witness for C10 at concrete inputs: a rejected transition leaves the
object untouched, and an accepted one changes only `Status`. -/
theorem setStatus_frame_witness :
    (SetStatus txCompleted "failed").1 = txCompleted
    ∧ (SetStatus txPending "completed").1.Status = "completed"
    ∧ (SetStatus txPending "completed").1.Amount = txPending.Amount := by
  have hrej : (SetStatus txCompleted "failed").2 =
      .error (.notAllowed "completed" "failed") := rfl
  refine ⟨?_, ?_, ?_⟩
  · exact (setStatus_frame txCompleted "failed").1 (by rw [hrej]; simp)
  · exact ((setStatus_frame txPending "completed").2 rfl).1
  · exact ((setStatus_frame txPending "completed").2 rfl).2.2.2.2.1

/-!
## String helpers shared by the embeddings

Go strings are embedded as `List Char`.  `trimChars` embeds
`strings.TrimSpace` (the inputs of interest are ASCII, so the ASCII
whitespace set of `unicode.IsSpace` is modelled), `splitOnChar` embeds
`strings.Split` with a one-character separator.
-/

def isSpaceGo (c : Char) : Bool :=
  c = ' ' || c = '\t' || c = '\n' || c = '\x0b' || c = '\x0c' || c = '\r'

/-- `strings.TrimSpace`: drop leading and trailing whitespace. -/
def trimChars (l : List Char) : List Char :=
  ((l.dropWhile isSpaceGo).reverse.dropWhile isSpaceGo).reverse

/-- `strings.Split(s, sep)` for a one-character separator: the list of
fields between occurrences of `sep`; always non-empty. -/
def splitOnChar (sep : Char) : List Char → List (List Char)
  | [] => [[]]
  | c :: cs =>
    if c = sep then [] :: splitOnChar sep cs
    else
      match splitOnChar sep cs with
      | [] => [[c]]
      | p :: ps => (c :: p) :: ps

theorem splitOnChar_head (sep : Char) (l : List Char) :
    ∃ ps, splitOnChar sep l = l.takeWhile (· ≠ sep) :: ps := by
  induction l with
  | nil => exact ⟨[], rfl⟩
  | cons c cs ih =>
    obtain ⟨ps, hps⟩ := ih
    by_cases h : c = sep
    · exact ⟨splitOnChar sep cs, by simp [splitOnChar, h, List.takeWhile_cons]⟩
    · exact ⟨ps, by simp [splitOnChar, h, hps, List.takeWhile_cons]⟩

/-!
## Client IP extraction

Embedded from `internal/utils/request.go` (`GetClientIP`).  The request is
modelled by the three headers the function reads (`""`/`[]` meaning the
header is absent, as `Header.Get` returns) and the peer address
`RemoteAddr`.
-/

structure Request where
  xForwardedFor : List Char
  xRealIP : List Char
  cfConnectingIP : List Char
  remoteAddr : List Char
deriving Repr, DecidableEq

/-- The code after the `X-Forwarded-For` block of `GetClientIP`:
`X-Real-IP`, then `CF-Connecting-IP`, then `RemoteAddr` split at `:`. -/
def clientIPTail (r : Request) : List Char :=
  if r.xRealIP ≠ [] then r.xRealIP
  else if r.cfConnectingIP ≠ [] then r.cfConnectingIP
  else
    if ':' ∈ r.remoteAddr then
      match splitOnChar ':' r.remoteAddr with
      | p :: _ => p
      | [] => r.remoteAddr
    else r.remoteAddr

/-- `GetClientIP` from `internal/utils/request.go`. -/
def GetClientIP (r : Request) : List Char :=
  if r.xForwardedFor ≠ [] then
    match splitOnChar ',' r.xForwardedFor with
    | ip0 :: _ => trimChars ip0
    | [] => clientIPTail r
  else clientIPTail r

/-- The spec sentence for the final fallback, stated in its own words:
the peer address with its port (the suffix from the last colon) stripped. -/
def stripPortSpecModel (addr : List Char) : List Char :=
  if ':' ∈ addr then ((addr.reverse.dropWhile (· ≠ ':')).drop 1).reverse
  else addr

/-- C9 counterexample: for an IPv6 peer address `[::1]:8080` with no proxy
headers, the code returns `"["` (the prefix before the first colon), not the
address with its port stripped (`"[::1]"`), so the claim as stated fails. -/
theorem getClientIP_counterexample :
    GetClientIP
        { xForwardedFor := [], xRealIP := [], cfConnectingIP := [],
          remoteAddr := "[::1]:8080".toList } = "[".toList
    ∧ stripPortSpecModel "[::1]:8080".toList = "[::1]".toList
    ∧ ("[".toList : List Char) ≠ "[::1]".toList := by
  refine ⟨by decide, by decide, by decide⟩

/-- C9 amended: the header precedence is as claimed (first comma-separated
`X-Forwarded-For` value trimmed, else `X-Real-IP`, else `CF-Connecting-IP`),
but the final fallback returns the prefix of `RemoteAddr` before its FIRST
colon when the address contains one (which strips the port only for
colon-free hosts such as IPv4), and `RemoteAddr` unchanged otherwise. -/
theorem getClientIP_amended (r : Request) :
    (r.xForwardedFor ≠ [] →
      GetClientIP r = trimChars (r.xForwardedFor.takeWhile (· ≠ ',')))
    ∧ (r.xForwardedFor = [] → r.xRealIP ≠ [] → GetClientIP r = r.xRealIP)
    ∧ (r.xForwardedFor = [] → r.xRealIP = [] → r.cfConnectingIP ≠ [] →
        GetClientIP r = r.cfConnectingIP)
    ∧ (r.xForwardedFor = [] → r.xRealIP = [] → r.cfConnectingIP = [] →
        GetClientIP r =
          if ':' ∈ r.remoteAddr then r.remoteAddr.takeWhile (· ≠ ':')
          else r.remoteAddr) := by
  refine ⟨?_, ?_, ?_, ?_⟩
  · intro hx
    obtain ⟨ps, hps⟩ := splitOnChar_head ',' r.xForwardedFor
    simp [GetClientIP, hx, hps]
  · intro hx hr
    simp [GetClientIP, clientIPTail, hx, hr]
  · intro hx hr hc
    simp [GetClientIP, clientIPTail, hx, hr, hc]
  · intro hx hr hc
    by_cases hcolon : ':' ∈ r.remoteAddr
    · obtain ⟨ps, hps⟩ := splitOnChar_head ':' r.remoteAddr
      simp [GetClientIP, clientIPTail, hx, hr, hc, hcolon, hps]
    · simp [GetClientIP, clientIPTail, hx, hr, hc, hcolon]

/-- Witness for the amended C9 at concrete requests: a forwarded chain, and
an IPv4 peer address falling back to `RemoteAddr`. -/
theorem getClientIP_amended_witness :
    GetClientIP
        { xForwardedFor := "10.0.0.9, 10.0.0.1".toList, xRealIP := [],
          cfConnectingIP := [], remoteAddr := "1.2.3.4:5678".toList }
      = "10.0.0.9".toList
    ∧ GetClientIP
        { xForwardedFor := [], xRealIP := [], cfConnectingIP := [],
          remoteAddr := "1.2.3.4:5678".toList }
      = "1.2.3.4".toList := by
  constructor
  · have h := (getClientIP_amended
      { xForwardedFor := "10.0.0.9, 10.0.0.1".toList, xRealIP := [],
        cfConnectingIP := [], remoteAddr := "1.2.3.4:5678".toList }).1
      (by decide)
    rw [h]; decide
  · have h := (getClientIP_amended
      { xForwardedFor := [], xRealIP := [], cfConnectingIP := [],
        remoteAddr := "1.2.3.4:5678".toList }).2.2.2 rfl rfl rfl
    rw [h]; decide

/-!
## Transaction queue

Embedded from `internal/services/transaction_queue.go`.  A job's future is
its buffered result channel (`ResultChan`, capacity 1): `completedOnceClosed`
models exactly one send followed by `close`, `neverCompleted` models a
channel that never receives a result.  A job's interaction with the
transaction service is abstracted by its behaviour: the `Transfer` call
either returns (a transaction or an error) or panics.
-/

inductive JobResult where
  | transferResult (ok : Bool)
  | queueFullError
deriving Repr, DecidableEq

inductive FutureState where
  | completedOnceClosed (r : JobResult)
  | neverCompleted
deriving Repr, DecidableEq

inductive JobBehavior where
  | returns (ok : Bool)
  | panics
deriving Repr, DecidableEq

/-- `AddJob`: the `select`'s send case is ready exactly when the buffered
job channel has free space; otherwise the `default` case runs, which
immediately spawns a goroutine delivering the distinguished queue-full
error to the future and closing it. -/
inductive AddJobOutcome where
  | enqueued
  | queueFull (future : FutureState)
deriving Repr, DecidableEq

def AddJob (queueLen bufferSize : Nat) : AddJobOutcome :=
  if queueLen < bufferSize then .enqueued
  else .queueFull (.completedOnceClosed .queueFullError)

/-- Outcome of one worker goroutine (`worker` in the source) over the
sequence of jobs it dequeues, in FIFO order.  Go semantics of the source:
the `recover` sits in a `defer` on the worker function itself, so a panic
raised while processing a job unwinds the `for range` loop, is then caught
and logged by the deferred function, and the worker function returns —
the panicking job's result channel is never written to or closed. -/
structure WorkerRun where
  futures : List FutureState
  dequeued : Nat
  recovered : Bool
deriving Repr, DecidableEq

def runWorker : List JobBehavior → WorkerRun
  | [] => { futures := [], dequeued := 0, recovered := false }
  | .returns ok :: rest =>
    let w := runWorker rest
    { futures := .completedOnceClosed (.transferResult ok) :: w.futures,
      dequeued := w.dequeued + 1, recovered := w.recovered }
  | .panics :: _ =>
    { futures := [.neverCompleted], dequeued := 1, recovered := true }

/-- The future state a non-panicking job receives from the worker. -/
def futureOf : JobBehavior → FutureState
  | .returns ok => .completedOnceClosed (.transferResult ok)
  | .panics => .neverCompleted

/-- C6 counterexample: a job accepted by `AddJob` (queue not full) whose
`Transfer` call panics leaves its future completed zero times — the
"completed with exactly one result in every execution path" part of the
claim fails. -/
theorem addJob_exactlyOnce_counterexample :
    AddJob 0 50 = .enqueued
    ∧ (runWorker [.panics]).futures = [.neverCompleted] := by
  exact ⟨rfl, rfl⟩

/-- C6 amended: when the job channel is full at submission, `AddJob` returns
immediately with a future that is completed exactly once with the
distinguished queue-full error and then closed; when there is space the job
is enqueued; and an enqueued job's future is completed exactly once and
closed provided no job processed by the worker panics.  A panic while
processing leaves the panicking job's future uncompleted. -/
theorem addJob_queue_spec (queueLen bufferSize : Nat) (jobs : List JobBehavior) :
    (bufferSize ≤ queueLen →
      AddJob queueLen bufferSize = .queueFull (.completedOnceClosed .queueFullError))
    ∧ (queueLen < bufferSize → AddJob queueLen bufferSize = .enqueued)
    ∧ ((∀ b ∈ jobs, b ≠ JobBehavior.panics) →
        (runWorker jobs).futures = jobs.map futureOf
        ∧ ∀ f ∈ (runWorker jobs).futures, ∃ r, f = .completedOnceClosed r) := by
  refine ⟨?_, ?_, ?_⟩
  · intro h
    have : ¬ queueLen < bufferSize := by omega
    simp [AddJob, this]
  · intro h
    simp [AddJob, h]
  · intro hnp
    have hmap : ∀ js : List JobBehavior, (∀ b ∈ js, b ≠ JobBehavior.panics) →
        (runWorker js).futures = js.map futureOf := by
      intro js
      induction js with
      | nil => intro _; rfl
      | cons b rest ih =>
        intro h
        cases b with
        | returns ok =>
          simp [runWorker, futureOf, ih (fun x hx => h x (List.mem_cons_of_mem _ hx))]
        | panics => exact absurd rfl (h _ (List.mem_cons_self _ _))
    refine ⟨hmap jobs hnp, ?_⟩
    rw [hmap jobs hnp]
    intro f hf
    obtain ⟨b, hb, rfl⟩ := List.mem_map.mp hf
    cases b with
    | returns ok => exact ⟨.transferResult ok, rfl⟩
    | panics => exact absurd rfl (hnp _ hb)

/-- Witness for the amended C6 at concrete inputs: full queue, free queue,
and a panic-free job list. -/
theorem addJob_queue_spec_witness :
    AddJob 50 50 = .queueFull (.completedOnceClosed .queueFullError)
    ∧ AddJob 3 50 = .enqueued
    ∧ (runWorker [.returns true, .returns false]).futures
        = [.completedOnceClosed (.transferResult true),
           .completedOnceClosed (.transferResult false)] := by
  refine ⟨(addJob_queue_spec 50 50 []).1 (by omega),
          (addJob_queue_spec 3 50 []).2.1 (by omega), ?_⟩
  have h := ((addJob_queue_spec 0 1 [.returns true, .returns false]).2.2
    (by intro b hb; fin_cases hb <;> simp)).1
  rw [h]; rfl

/-- C7 counterexample: with a panicking job followed by a normal job in the
channel, the worker dequeues only the first job — the panic is recovered
but the worker's consumption loop terminates instead of continuing with the
subsequent job. -/
theorem worker_panic_counterexample :
    (runWorker [.panics, .returns true]).dequeued = 1
    ∧ (runWorker [.panics, .returns true]).recovered = true
    ∧ (runWorker [.panics, .returns true]).futures = [.neverCompleted] := by
  exact ⟨rfl, rfl, rfl⟩

/-- C7 amended: a panic raised while processing a job is recovered and
logged (the process does not crash and the deferred `wg.Done` still runs),
but the worker goroutine exits its consumption loop: it dequeues nothing
after the panicking job, whose own future is never completed. -/
theorem worker_panic_recovery_spec (pre post : List JobBehavior) :
    (∀ b ∈ pre, b ≠ JobBehavior.panics) →
    (runWorker (pre ++ .panics :: post)).recovered = true
    ∧ (runWorker (pre ++ .panics :: post)).dequeued = pre.length + 1
    ∧ (runWorker (pre ++ .panics :: post)).futures
        = pre.map futureOf ++ [.neverCompleted] := by
  induction pre with
  | nil => intro _; exact ⟨rfl, rfl, rfl⟩
  | cons b rest ih =>
    intro h
    have hb : b ≠ JobBehavior.panics := h _ (List.mem_cons_self _ _)
    have ihr := ih (fun x hx => h x (List.mem_cons_of_mem _ hx))
    cases b with
    | returns ok =>
      refine ⟨?_, ?_, ?_⟩ <;>
        simp [runWorker, futureOf, ihr.1, ihr.2.1, ihr.2.2]
    | panics => exact absurd rfl hb

/-- Witness for the amended C7: one good job, then a panicking one, then a
stranded one. -/
theorem worker_panic_recovery_spec_witness :
    (runWorker [.returns true, .panics, .returns false]).recovered = true
    ∧ (runWorker [.returns true, .panics, .returns false]).dequeued = 2
    ∧ (runWorker [.returns true, .panics, .returns false]).futures
        = [.completedOnceClosed (.transferResult true), .neverCompleted] := by
  have h := worker_panic_recovery_spec [.returns true] [.returns false]
    (by intro b hb; fin_cases hb; simp)
  exact ⟨h.1, h.2.1, h.2.2⟩

/-!
## Auth core: token refresh

Embedded from the `auth` package (`GenerateToken`, `RefreshToken`).  The
external `golang-jwt/v5` library is modelled as an oracle classifying the
input token string, following the checks the source dispatches on, in v5
evaluation order (signature is verified before claim validation, so
`ErrTokenExpired` is only reported for well-formed tokens with a valid
HMAC signature):

* `valid`      — `err == nil && token.Valid`;
* `expired`    — `errors.Is(err, jwt.ErrTokenExpired)`, decoded claims
  available;
* `nilToken`   — parsing failed before a token object existed (for
  example the wrong number of segments);
* `malformed`  — `errors.Is(err, jwt.ErrTokenMalformed)` with a token
  object;
* `sigInvalid` — `errors.Is(err, jwt.ErrTokenSignatureInvalid)`;
* `otherError` — any other parse or validation error.

Time is in seconds. -/

structure Claims where
  UserID : Int
  Email : String
  ExpiresAt : Int
  IssuedAt : Int
deriving Repr, DecidableEq

inductive ParseOutcome where
  | valid (claims : Claims)
  | expired (claims : Claims)
  | nilToken
  | malformed
  | sigInvalid
  | otherError
deriving Repr, DecidableEq

/-- One constructor per error return of the source `RefreshToken`. -/
inductive RefreshError where
  | stillValid
  | parseFailed
  | malformed
  | sigInvalid
  | otherError
deriving Repr, DecidableEq

/-- `GenerateToken(userID, email)`: claims with `iat = now` and
`exp = now + 24h`, HMAC-signed (the signing itself is the library's). -/
def GenerateToken (userID : Int) (email : String) (now : Int) : Claims :=
  { UserID := userID, Email := email,
    ExpiresAt := now + 24 * 60 * 60, IssuedAt := now }

/-- `RefreshToken(tokenString)` from the `auth` package, dispatching on the
parse outcome exactly as the source does: a still-valid token is rejected,
a nil token is a parse failure, an expired token is re-issued with the same
`user_id` and `email` and `expiresIn = 24*60*60`, and the malformed /
invalid-signature / other errors are propagated. -/
def RefreshToken (outcome : ParseOutcome) (now : Int) :
    Except RefreshError (Claims × Int) :=
  match outcome with
  | .valid _ => .error .stillValid
  | .nilToken => .error .parseFailed
  | .expired claims =>
    .ok (GenerateToken claims.UserID claims.Email now, 24 * 60 * 60)
  | .malformed => .error .malformed
  | .sigInvalid => .error .sigInvalid
  | .otherError => .error .otherError

/-- C5: `RefreshToken` succeeds exactly on a well-formed, validly signed but
expired token, returning a new token with the same `user_id` and `email`
claims and a 24-hour TTL; a still-valid token is rejected with the
"refresh not needed" error, and malformed or invalid-signature tokens are
rejected with an error. -/
theorem refreshToken_spec (o : ParseOutcome) (now : Int) :
    (∀ c, o = .expired c →
      RefreshToken o now = .ok (GenerateToken c.UserID c.Email now, 24 * 60 * 60)
      ∧ (GenerateToken c.UserID c.Email now).UserID = c.UserID
      ∧ (GenerateToken c.UserID c.Email now).Email = c.Email
      ∧ (GenerateToken c.UserID c.Email now).ExpiresAt
          - (GenerateToken c.UserID c.Email now).IssuedAt = 24 * 60 * 60)
    ∧ (∀ c, o = .valid c → RefreshToken o now = .error .stillValid)
    ∧ (o = .malformed → ∃ e, RefreshToken o now = .error e)
    ∧ (o = .sigInvalid → ∃ e, RefreshToken o now = .error e)
    ∧ (o = .nilToken → ∃ e, RefreshToken o now = .error e)
    ∧ ((∃ c i, RefreshToken o now = .ok (c, i)) → ∃ c, o = .expired c) := by
  refine ⟨?_, ?_, ?_, ?_, ?_, ?_⟩
  · rintro c rfl
    refine ⟨rfl, rfl, rfl, ?_⟩
    simp [GenerateToken]
  · rintro c rfl; rfl
  · rintro rfl; exact ⟨.malformed, rfl⟩
  · rintro rfl; exact ⟨.sigInvalid, rfl⟩
  · rintro rfl; exact ⟨.parseFailed, rfl⟩
  · rintro ⟨c, i, h⟩
    cases o with
    | expired cl => exact ⟨cl, rfl⟩
    | valid cl => exact absurd h (by simp [RefreshToken])
    | nilToken => exact absurd h (by simp [RefreshToken])
    | malformed => exact absurd h (by simp [RefreshToken])
    | sigInvalid => exact absurd h (by simp [RefreshToken])
    | otherError => exact absurd h (by simp [RefreshToken])

/-- Expired claims used by the C5 witness. -/
def claimsExpired : Claims :=
  { UserID := 7, Email := "a@x.io", ExpiresAt := 100, IssuedAt := 0 }

/-- Still-valid claims used by the C5 witness. -/
def claimsValid : Claims :=
  { UserID := 7, Email := "a@x.io", ExpiresAt := 100000, IssuedAt := 0 }

/-- Witness for C5 at concrete inputs: an expired token is refreshed with
the same identity claims, a valid one is rejected. -/
theorem refreshToken_spec_witness :
    RefreshToken (.expired claimsExpired) 1000
      = .ok (GenerateToken 7 "a@x.io" 1000, 24 * 60 * 60)
    ∧ RefreshToken (.valid claimsValid) 1000 = .error .stillValid := by
  constructor
  · exact ((refreshToken_spec (.expired claimsExpired) 1000).1 _ rfl).1
  · exact (refreshToken_spec (.valid claimsValid) 1000).2.1 _ rfl

/-!
## Money-movement engine

Embedded from `internal/services/transaction_service.go` together with the
scoped transaction helper of `internal/db/db.go`.  The database is a record
of the rows these operations read and write: the `balances` table
(association list `user_id -> amount`, one row per user), the
`transactions` table, the `balance_history` table and the id sequence
backing `RETURNING id`.  Amounts are exact rationals.  Transport-level SQL
failures are outside the model: the model database always answers, so the
error branches of the source that only handle driver errors are dead here;
`sql.ErrNoRows` is modelled by `Option`.  Each operation also records the
user ids for which it issued `SELECT ... FOR UPDATE`, in issuance order
(the `locks` trace). -/

/-- Request/transaction validation errors
(`models.TransferRequest.Validate` and friends). -/
inductive ReqError where
  | invalidUserId
  | amountNotPositive
  | amountTooLarge
deriving Repr, DecidableEq

/-- Errors of `models.Transaction.Validate`. -/
inductive TxValidateError where
  | amountNotPositive
  | invalidType (s : String)
  | statusErr (e : StatusError)
  | creditNeedsToUser
  | creditForbidsFromUser
  | debitNeedsFromUser
  | debitForbidsToUser
  | transferNeedsBothUsers
  | transferSameUser
deriving Repr, DecidableEq

structure TransferRequest where
  ToUserID : Int
  Amount : Rat
  Description : String
deriving Repr, DecidableEq

structure CreditRequest where
  Amount : Rat
  Description : String
deriving Repr, DecidableEq

structure DebitRequest where
  Amount : Rat
  Description : String
deriving Repr, DecidableEq

/-- `(req *TransferRequest) Validate()`. -/
def TransferRequest.Validate (req : TransferRequest) : Except ReqError Unit :=
  if req.ToUserID ≤ 0 then .error .invalidUserId
  else if req.Amount ≤ 0 then .error .amountNotPositive
  else if req.Amount > 1000000 then .error .amountTooLarge
  else .ok ()

/-- `(req *CreditRequest) Validate()`. -/
def CreditRequest.Validate (req : CreditRequest) : Except ReqError Unit :=
  if req.Amount ≤ 0 then .error .amountNotPositive
  else if req.Amount > 1000000 then .error .amountTooLarge
  else .ok ()

/-- `(req *DebitRequest) Validate()`. -/
def DebitRequest.Validate (req : DebitRequest) : Except ReqError Unit :=
  if req.Amount ≤ 0 then .error .amountNotPositive
  else if req.Amount > 1000000 then .error .amountTooLarge
  else .ok ()

/-- `(t *Transaction) ValidateType()`. -/
def ValidateType (t : Transaction) : Except TxValidateError Unit :=
  if t.type' = "credit" ∨ t.type' = "debit" ∨ t.type' = "transfer" then .ok ()
  else .error (.invalidType t.type')

/-- `(t *Transaction) Validate()`: amount, type, status, then the
type-dependent nullability of the user ids. -/
def Transaction.Validate (t : Transaction) : Except TxValidateError Unit :=
  if t.Amount ≤ 0 then .error .amountNotPositive
  else
    match ValidateType t with
    | .error e => .error e
    | .ok _ =>
      match ValidateStatus t with
      | .error e => .error (.statusErr e)
      | .ok _ =>
        if t.type' = "credit" then
          if t.ToUserID = none then .error .creditNeedsToUser
          else if t.FromUserID ≠ none then .error .creditForbidsFromUser
          else .ok ()
        else if t.type' = "debit" then
          if t.FromUserID = none then .error .debitNeedsFromUser
          else if t.ToUserID ≠ none then .error .debitForbidsToUser
          else .ok ()
        else if t.type' = "transfer" then
          if t.FromUserID = none ∨ t.ToUserID = none then .error .transferNeedsBothUsers
          else if t.FromUserID = t.ToUserID then .error .transferSameUser
          else .ok ()
        else .ok ()

/-- `models.NewTransferTransaction`. -/
def NewTransferTransaction (fromUserID toUserID : Int) (amount : Rat)
    (description : String) : Transaction :=
  { ID := 0, FromUserID := some fromUserID, ToUserID := some toUserID,
    Amount := amount, type' := "transfer", Status := StatusPending,
    Description := description, CreatedAt := 0 }

/-- `models.NewCreditTransaction`. -/
def NewCreditTransaction (toUserID : Int) (amount : Rat)
    (description : String) : Transaction :=
  { ID := 0, FromUserID := none, ToUserID := some toUserID,
    Amount := amount, type' := "credit", Status := StatusPending,
    Description := description, CreatedAt := 0 }

/-- `models.NewDebitTransaction`. -/
def NewDebitTransaction (fromUserID : Int) (amount : Rat)
    (description : String) : Transaction :=
  { ID := 0, FromUserID := some fromUserID, ToUserID := none,
    Amount := amount, type' := "debit", Status := StatusPending,
    Description := description, CreatedAt := 0 }

/-- A row of the `transactions` table. -/
structure TxRow where
  id : Nat
  from_user_id : Option Int
  to_user_id : Option Int
  amount : Rat
  type' : String
  status : String
  description : String
deriving Repr, DecidableEq

/-- A row of the `balance_history` table (never written by these
operations; present so that history emission is observable). -/
structure HistRow where
  user_id : Int
  change_amount : Rat
  reason : String
  transaction_id : Option Nat
deriving Repr, DecidableEq

structure DBState where
  balances : List (Int × Rat)
  transactions : List TxRow
  history : List HistRow
  nextTxId : Nat
deriving Repr, DecidableEq

/-- `SELECT amount FROM balances WHERE user_id = $1` (`none` = no row). -/
def getBalanceRow (st : DBState) (uid : Int) : Option Rat :=
  (st.balances.find? (fun p => p.1 == uid)).map (fun p => p.2)

/-- `UPDATE balances SET amount = $1 WHERE user_id = $2`. -/
def setBalanceRow (st : DBState) (uid : Int) (amt : Rat) : DBState :=
  { st with balances :=
      st.balances.map (fun p => if p.1 == uid then (p.1, amt) else p) }

/-- `INSERT INTO balances (user_id, amount) VALUES ($1, 0.00)`. -/
def insertBalanceRow (st : DBState) (uid : Int) (amt : Rat) : DBState :=
  { st with balances := st.balances ++ [(uid, amt)] }

/-- `INSERT INTO transactions ... RETURNING id`: appends the row with the
next id of the sequence and returns that id. -/
def insertTxRow (st : DBState) (row : TxRow) : DBState × Nat :=
  ({ st with transactions := st.transactions ++ [{ row with id := st.nextTxId }],
             nextTxId := st.nextTxId + 1 }, st.nextTxId)

/-- `UPDATE transactions SET status = $1 WHERE id = $2`. -/
def updateTxStatus (st : DBState) (id : Nat) (status : String) : DBState :=
  { st with transactions :=
      st.transactions.map (fun r => if r.id == id then { r with status := status } else r) }

/-- One constructor per `fmt.Errorf` site reachable in the model. -/
inductive TransferError where
  | requestInvalid (e : ReqError)
  | selfTransfer
  | transactionInvalid (e : TxValidateError)
  | balanceNotFound
  | insufficientBalance (current : Rat)
  | statusUpdateFailed (e : StatusError)
deriving Repr, DecidableEq

/-- `db.WithTransaction` of `internal/db/db.go`: run the body on the
current state; commit (keep the body's state) exactly when the body
succeeds, otherwise roll back (keep the entry state).  A panic inside the
body would also roll back and re-raise; the embedded bodies are total, so
no panic path arises.  The `τ` component carries the body's observable
side trace (the lock order). -/
def WithTransaction {ε α τ : Type} (st : DBState)
    (fn : DBState → Except ε (DBState × α) × τ) : Except ε α × DBState × τ :=
  match fn st with
  | (.error e, tr) => (.error e, st, tr)
  | (.ok (st', a), tr) => (.ok a, st', tr)

/-- The result of one money operation: the value returned to the handler,
the database state after commit or rollback, and the `FOR UPDATE` trace. -/
structure OpResult where
  result : Except TransferError Transaction
  db : DBState
  locks : List Int
deriving Repr

/-- The transaction body of `Transfer` (the closure passed to
`db.WithTransaction`), step-numbered as in the source. -/
def transferBody (fromUserID : Int) (req : TransferRequest)
    (transaction : Transaction) (st0 : DBState) :
    Except TransferError (DBState × Transaction) × List Int :=
  -- 1. read and lock the sender's balance row
  match getBalanceRow st0 fromUserID with
  | none => (.error .balanceNotFound, [fromUserID])
  | some fromBalance =>
    -- 2. sufficient funds check
    if fromBalance < req.Amount then
      (.error (.insufficientBalance fromBalance), [fromUserID])
    else
      -- 3. read and lock the recipient's balance row, creating it at 0
      --    when absent
      let s1 := match getBalanceRow st0 req.ToUserID with
        | none => (insertBalanceRow st0 req.ToUserID 0, (0 : Rat))
        | some tb => (st0, tb)
      let st1 := s1.1
      let toBalance := s1.2
      -- 4. insert the transaction row with the pending status
      let s2 := insertTxRow st1
        { id := 0, from_user_id := some fromUserID, to_user_id := some req.ToUserID,
          amount := req.Amount, type' := transaction.type',
          status := transaction.Status, description := req.Description }
      let st2 := s2.1
      let transactionID := s2.2
      -- 5. update both balances, sender first
      let st3 := setBalanceRow st2 fromUserID (fromBalance - req.Amount)
      let st4 := setBalanceRow st3 req.ToUserID (toBalance + req.Amount)
      -- advance the in-memory state machine to completed, then persist it
      match SetStatus transaction StatusCompleted with
      | (_, .error e) => (.error (.statusUpdateFailed e), [fromUserID, req.ToUserID])
      | (t2, .ok _) =>
        let st5 := updateTxStatus st4 transactionID t2.Status
        (.ok (st5, { t2 with ID := Int.ofNat transactionID }),
         [fromUserID, req.ToUserID])

/-- `(s *TransactionService) Transfer(fromUserID, req)`. -/
def Transfer (st : DBState) (fromUserID : Int) (req : TransferRequest) : OpResult :=
  match TransferRequest.Validate req with
  | .error e => { result := .error (.requestInvalid e), db := st, locks := [] }
  | .ok _ =>
    if fromUserID = req.ToUserID then
      { result := .error .selfTransfer, db := st, locks := [] }
    else
      let transaction :=
        NewTransferTransaction fromUserID req.ToUserID req.Amount req.Description
      match Transaction.Validate transaction with
      | .error e => { result := .error (.transactionInvalid e), db := st, locks := [] }
      | .ok _ =>
        match WithTransaction st (transferBody fromUserID req transaction) with
        | (r, st', ls) => { result := r, db := st', locks := ls }

/-- The transaction body of `Credit`. -/
def creditBody (userID : Int) (req : CreditRequest) (description : String)
    (transaction : Transaction) (st0 : DBState) :
    Except TransferError (DBState × Transaction) × List Int :=
  -- 1. read and lock the balance row, creating it at 0 when absent
  let s1 := match getBalanceRow st0 userID with
    | none => (insertBalanceRow st0 userID 0, (0 : Rat))
    | some b => (st0, b)
  let st1 := s1.1
  let currentBalance := s1.2
  -- 2. insert the transaction row (to set, from NULL) with pending status
  let s2 := insertTxRow st1
    { id := 0, from_user_id := none, to_user_id := some userID,
      amount := req.Amount, type' := transaction.type',
      status := transaction.Status, description := description }
  let st2 := s2.1
  let transactionID := s2.2
  -- 3. increase the balance
  let st3 := setBalanceRow st2 userID (currentBalance + req.Amount)
  match SetStatus transaction StatusCompleted with
  | (_, .error e) => (.error (.statusUpdateFailed e), [userID])
  | (t2, .ok _) =>
    let st4 := updateTxStatus st3 transactionID t2.Status
    (.ok (st4, { t2 with ID := Int.ofNat transactionID }), [userID])

/-- `(s *TransactionService) Credit(userID, req)`; the default description
of the source is applied before the body runs. -/
def Credit (st : DBState) (userID : Int) (req : CreditRequest) : OpResult :=
  match CreditRequest.Validate req with
  | .error e => { result := .error (.requestInvalid e), db := st, locks := [] }
  | .ok _ =>
    let description :=
      if req.Description = "" then "Hesaba para yatirma" else req.Description
    let transaction := NewCreditTransaction userID req.Amount description
    match Transaction.Validate transaction with
    | .error e => { result := .error (.transactionInvalid e), db := st, locks := [] }
    | .ok _ =>
      match WithTransaction st (creditBody userID req description transaction) with
      | (r, st', ls) => { result := r, db := st', locks := ls }

/-- The transaction body of `Debit`. -/
def debitBody (userID : Int) (req : DebitRequest) (description : String)
    (transaction : Transaction) (st0 : DBState) :
    Except TransferError (DBState × Transaction) × List Int :=
  -- 1. read and lock the balance row
  match getBalanceRow st0 userID with
  | none => (.error .balanceNotFound, [userID])
  | some currentBalance =>
    -- 2. sufficient funds check
    if currentBalance < req.Amount then
      (.error (.insufficientBalance currentBalance), [userID])
    else
      -- 3. insert the transaction row (from set, to NULL), pending status
      let s2 := insertTxRow st0
        { id := 0, from_user_id := some userID, to_user_id := none,
          amount := req.Amount, type' := transaction.type',
          status := transaction.Status, description := description }
      let st2 := s2.1
      let transactionID := s2.2
      -- 4. decrease the balance
      let st3 := setBalanceRow st2 userID (currentBalance - req.Amount)
      match SetStatus transaction StatusCompleted with
      | (_, .error e) => (.error (.statusUpdateFailed e), [userID])
      | (t2, .ok _) =>
        let st4 := updateTxStatus st3 transactionID t2.Status
        (.ok (st4, { t2 with ID := Int.ofNat transactionID }), [userID])

/-- `(s *TransactionService) Debit(userID, req)`. -/
def Debit (st : DBState) (userID : Int) (req : DebitRequest) : OpResult :=
  match DebitRequest.Validate req with
  | .error e => { result := .error (.requestInvalid e), db := st, locks := [] }
  | .ok _ =>
    let description :=
      if req.Description = "" then "Hesaptan para cekme" else req.Description
    let transaction := NewDebitTransaction userID req.Amount description
    match Transaction.Validate transaction with
    | .error e => { result := .error (.transactionInvalid e), db := st, locks := [] }
    | .ok _ =>
      match WithTransaction st (debitBody userID req description transaction) with
      | (r, st', ls) => { result := r, db := st', locks := ls }

theorem transferRequest_validate_ok (req : TransferRequest) :
    TransferRequest.Validate req = .ok () ↔
      ¬req.ToUserID ≤ 0 ∧ ¬req.Amount ≤ 0 ∧ ¬req.Amount > 1000000 := by
  unfold TransferRequest.Validate
  split_ifs <;> simp_all

theorem debitRequest_validate_ok (req : DebitRequest) :
    DebitRequest.Validate req = .ok () ↔
      ¬req.Amount ≤ 0 ∧ ¬req.Amount > 1000000 := by
  unfold DebitRequest.Validate
  split_ifs <;> simp_all

theorem newTransfer_valid (f t : Int) (a : Rat) (d : String)
    (hne : f ≠ t) (hpos : 0 < a) :
    Transaction.Validate (NewTransferTransaction f t a d) = .ok () := by
  unfold Transaction.Validate NewTransferTransaction ValidateType ValidateStatus
  simp [validStatuses, StatusPending, StatusCompleted, StatusFailed, StatusCancelled,
    not_le.mpr hpos, hne]

theorem newDebit_valid (f : Int) (a : Rat) (d : String) (hpos : 0 < a) :
    Transaction.Validate (NewDebitTransaction f a d) = .ok () := by
  unfold Transaction.Validate NewDebitTransaction ValidateType ValidateStatus
  simp [validStatuses, StatusPending, StatusCompleted, StatusFailed, StatusCancelled,
    not_le.mpr hpos]

/-- C1: for every transfer or debit whose paying account's row-locked
balance is strictly below the requested amount, the operation returns the
insufficient-funds error carrying the current balance, the scoped database
transaction rolls the state back unchanged (so every balance row is
unchanged), and no transaction row — in particular none with status
`completed` — is committed. -/
theorem insufficient_funds_rolls_back :
    (∀ (st : DBState) (fromUserID : Int) (req : TransferRequest) (b : Rat),
      TransferRequest.Validate req = .ok () → fromUserID ≠ req.ToUserID →
      getBalanceRow st fromUserID = some b → b < req.Amount →
      (Transfer st fromUserID req).result = .error (.insufficientBalance b)
      ∧ (Transfer st fromUserID req).db = st
      ∧ (Transfer st fromUserID req).db.balances = st.balances
      ∧ (Transfer st fromUserID req).db.transactions = st.transactions)
    ∧ (∀ (st : DBState) (userID : Int) (req : DebitRequest) (b : Rat),
      DebitRequest.Validate req = .ok () →
      getBalanceRow st userID = some b → b < req.Amount →
      (Debit st userID req).result = .error (.insufficientBalance b)
      ∧ (Debit st userID req).db = st
      ∧ (Debit st userID req).db.balances = st.balances
      ∧ (Debit st userID req).db.transactions = st.transactions) := by
  constructor
  · intro st fromUserID req b hv hne hb hlt
    have hpos : 0 < req.Amount := by
      have := (transferRequest_validate_ok req).mp hv
      exact lt_of_not_le this.2.1
    have hval := newTransfer_valid fromUserID req.ToUserID req.Amount req.Description
      hne hpos
    have hrun : Transfer st fromUserID req =
        { result := .error (.insufficientBalance b), db := st, locks := [fromUserID] } := by
      simp [Transfer, hv, hne, hval, WithTransaction, transferBody, hb, hlt]
    rw [hrun]
    exact ⟨rfl, rfl, rfl, rfl⟩
  · intro st userID req b hv hb hlt
    have hpos : 0 < req.Amount := by
      have := (debitRequest_validate_ok req).mp hv
      exact lt_of_not_le this.1
    have hval := newDebit_valid userID req.Amount
      (if req.Description = "" then "Hesaptan para cekme" else req.Description) hpos
    have hrun : Debit st userID req =
        { result := .error (.insufficientBalance b), db := st, locks := [userID] } := by
      simp [Debit, hv, hval, WithTransaction, debitBody, hb, hlt]
    rw [hrun]
    exact ⟨rfl, rfl, rfl, rfl⟩

/-- Balances and request for the C1 witness: user 1 holds 10 and tries to
pay 50. -/
def stInsufficient : DBState :=
  { balances := [(1, 10), (2, 0)], transactions := [], history := [], nextTxId := 1 }

def reqInsufficientTransfer : TransferRequest :=
  { ToUserID := 2, Amount := 50, Description := "" }

def reqInsufficientDebit : DebitRequest :=
  { Amount := 50, Description := "" }

/-- Witness for C1 at a concrete state: A (balance 10) transfers 50 to B
and debits 50; both fail with `insufficient_funds` and change nothing. -/
theorem insufficient_funds_rolls_back_witness :
    (Transfer stInsufficient 1 reqInsufficientTransfer).result
        = .error (.insufficientBalance 10)
    ∧ (Transfer stInsufficient 1 reqInsufficientTransfer).db = stInsufficient
    ∧ (Debit stInsufficient 1 reqInsufficientDebit).result
        = .error (.insufficientBalance 10)
    ∧ (Debit stInsufficient 1 reqInsufficientDebit).db = stInsufficient := by
  have h1 := insufficient_funds_rolls_back.1 stInsufficient 1 reqInsufficientTransfer 10
    rfl (by decide) rfl (by decide)
  have h2 := insufficient_funds_rolls_back.2 stInsufficient 1 reqInsufficientDebit 10
    rfl rfl (by decide)
  exact ⟨h1.1, h1.2.1, h2.1, h2.2.1⟩

@[simp] theorem setBalanceRow_history (st : DBState) (uid : Int) (a : Rat) :
    (setBalanceRow st uid a).history = st.history := rfl

@[simp] theorem insertBalanceRow_history (st : DBState) (uid : Int) (a : Rat) :
    (insertBalanceRow st uid a).history = st.history := rfl

@[simp] theorem insertTxRow_history (st : DBState) (r : TxRow) :
    (insertTxRow st r).1.history = st.history := rfl

@[simp] theorem updateTxStatus_history (st : DBState) (id : Nat) (s : String) :
    (updateTxStatus st id s).history = st.history := rfl

/-- State and request for the C2 counterexample. -/
def stCredit : DBState :=
  { balances := [(1, 100)], transactions := [], history := [], nextTxId := 1 }

def reqCredit : CreditRequest := { Amount := 50, Description := "d" }

/-- The transaction value the counterexample credit returns. -/
def txCreditDone : Transaction :=
  { ID := 1, FromUserID := none, ToUserID := some 1, Amount := 50,
    type' := "credit", Status := "completed", Description := "d", CreatedAt := 0 }

/-- C2 counterexample: a credit of 50 to user 1 commits successfully (the
balance row moves from 100 to 150 and the transaction row is completed),
yet the committed state contains no `BalanceHistory` row at all — the
claimed per-account history emission does not happen. -/
theorem credit_success_writes_no_history :
    (Credit stCredit 1 reqCredit).result = .ok txCreditDone
    ∧ (Credit stCredit 1 reqCredit).db.balances = [(1, 150)]
    ∧ (Credit stCredit 1 reqCredit).db.history = [] := by
  refine ⟨rfl, ?_, rfl⟩
  have h : (Credit stCredit 1 reqCredit).db.balances = [(1, 100 + 50)] := rfl
  rw [h]
  norm_num

theorem withTransaction_history {ε α τ : Type} (st : DBState)
    (fn : DBState → Except ε (DBState × α) × τ)
    (hfn : ∀ st' a tr, fn st = (.ok (st', a), tr) → st'.history = st.history) :
    (WithTransaction st fn).2.1.history = st.history := by
  unfold WithTransaction
  rcases h : fn st with ⟨r, tr⟩
  cases r with
  | error e => simp
  | ok p =>
    rcases p with ⟨st', a⟩
    simpa using hfn st' a tr h

theorem transferBody_history (f : Int) (req : TransferRequest) (t : Transaction)
    (st0 st' : DBState) (tt : Transaction) (ls : List Int)
    (h : transferBody f req t st0 = (.ok (st', tt), ls)) :
    st'.history = st0.history := by
  unfold transferBody at h
  repeat' split at h
  all_goals try simp_all
  all_goals (obtain ⟨⟨h1, h2⟩, h3⟩ := h; subst h1; simp)

theorem creditBody_history (uid : Int) (req : CreditRequest) (d : String)
    (t : Transaction) (st0 st' : DBState) (tt : Transaction) (ls : List Int)
    (h : creditBody uid req d t st0 = (.ok (st', tt), ls)) :
    st'.history = st0.history := by
  unfold creditBody at h
  repeat' split at h
  all_goals try simp_all
  all_goals (obtain ⟨⟨h1, h2⟩, h3⟩ := h; subst h1; simp)

theorem debitBody_history (uid : Int) (req : DebitRequest) (d : String)
    (t : Transaction) (st0 st' : DBState) (tt : Transaction) (ls : List Int)
    (h : debitBody uid req d t st0 = (.ok (st', tt), ls)) :
    st'.history = st0.history := by
  unfold debitBody at h
  repeat' split at h
  all_goals try simp_all
  all_goals (obtain ⟨⟨h1, h2⟩, h3⟩ := h; subst h1; simp)

/-- C2 amended: no transfer, credit or debit operation ever writes a
`balance_history` row — in every execution path the committed (or rolled
back) state carries exactly the history rows it started with; only the
transaction row and the balance rows are written. -/
theorem operations_never_write_history (st : DBState) (uid : Int)
    (treq : TransferRequest) (creq : CreditRequest) (dreq : DebitRequest) :
    (Transfer st uid treq).db.history = st.history
    ∧ (Credit st uid creq).db.history = st.history
    ∧ (Debit st uid dreq).db.history = st.history := by
  refine ⟨?_, ?_, ?_⟩
  · rcases hv : TransferRequest.Validate treq with e | u
    · simp [Transfer, hv]
    · by_cases hne : uid = treq.ToUserID
      · simp [Transfer, hv, hne]
      · rcases hval : Transaction.Validate
            (NewTransferTransaction uid treq.ToUserID treq.Amount treq.Description)
            with e | u2
        · simp [Transfer, hv, hne, hval]
        · have hx := withTransaction_history st
            (transferBody uid treq
              (NewTransferTransaction uid treq.ToUserID treq.Amount treq.Description))
            (fun st' a tr h => transferBody_history _ _ _ _ _ _ _ h)
          rcases hW : WithTransaction st
            (transferBody uid treq
              (NewTransferTransaction uid treq.ToUserID treq.Amount treq.Description))
            with ⟨r, st', ls⟩
          rw [hW] at hx
          have hx' : st'.history = st.history := hx
          simp [Transfer, hv, hne, hval, hW, hx']
  · rcases hv : CreditRequest.Validate creq with e | u
    · simp [Credit, hv]
    · rcases hval : Transaction.Validate
          (NewCreditTransaction uid creq.Amount
            (if creq.Description = "" then "Hesaba para yatirma" else creq.Description))
          with e | u2
      · simp [Credit, hv, hval]
      · have hx := withTransaction_history st
          (creditBody uid creq
            (if creq.Description = "" then "Hesaba para yatirma" else creq.Description)
            (NewCreditTransaction uid creq.Amount
              (if creq.Description = "" then "Hesaba para yatirma" else creq.Description)))
          (fun st' a tr h => creditBody_history _ _ _ _ _ _ _ _ h)
        rcases hW : WithTransaction st
          (creditBody uid creq
            (if creq.Description = "" then "Hesaba para yatirma" else creq.Description)
            (NewCreditTransaction uid creq.Amount
              (if creq.Description = "" then "Hesaba para yatirma" else creq.Description)))
          with ⟨r, st', ls⟩
        rw [hW] at hx
        have hx' : st'.history = st.history := hx
        simp [Credit, hv, hval, hW, hx']
  · rcases hv : DebitRequest.Validate dreq with e | u
    · simp [Debit, hv]
    · rcases hval : Transaction.Validate
          (NewDebitTransaction uid dreq.Amount
            (if dreq.Description = "" then "Hesaptan para cekme" else dreq.Description))
          with e | u2
      · simp [Debit, hv, hval]
      · have hx := withTransaction_history st
          (debitBody uid dreq
            (if dreq.Description = "" then "Hesaptan para cekme" else dreq.Description)
            (NewDebitTransaction uid dreq.Amount
              (if dreq.Description = "" then "Hesaptan para cekme" else dreq.Description)))
          (fun st' a tr h => debitBody_history _ _ _ _ _ _ _ _ h)
        rcases hW : WithTransaction st
          (debitBody uid dreq
            (if dreq.Description = "" then "Hesaptan para cekme" else dreq.Description)
            (NewDebitTransaction uid dreq.Amount
              (if dreq.Description = "" then "Hesaptan para cekme" else dreq.Description)))
          with ⟨r, st', ls⟩
        rw [hW] at hx
        have hx' : st'.history = st.history := hx
        simp [Debit, hv, hval, hW, hx']

/-- State and request for the C3 counterexample: the sender has the larger
user id, so role order and ascending id order disagree. -/
def stLocks : DBState :=
  { balances := [(3, 100), (5, 100)], transactions := [], history := [], nextTxId := 1 }

def reqLocks : TransferRequest := { ToUserID := 3, Amount := 10, Description := "" }

/-- C3 counterexample: a transfer from user 5 to user 3 issues its
`SELECT ... FOR UPDATE` row locks in the order `[5, 3]` — the sender's row
first — which is not ascending user_id order. -/
theorem transfer_lock_order_counterexample :
    (Transfer stLocks 5 reqLocks).locks = [5, 3]
    ∧ ¬ List.Pairwise (fun a b => a ≤ b) (Transfer stLocks 5 reqLocks).locks := by
  have h : (Transfer stLocks 5 reqLocks).locks = [5, 3] := by rfl
  refine ⟨h, ?_⟩
  rw [h]
  decide

/-- C3 amended: whenever a transfer reaches both row locks (valid request,
distinct parties, sender row present with sufficient funds), the two
balance rows are locked sender first and recipient second — a fixed role
order, independent of which user id is smaller. -/
theorem transfer_locks_sender_first (st : DBState) (fromUserID : Int)
    (req : TransferRequest) (b : Rat)
    (hv : TransferRequest.Validate req = .ok ())
    (hne : fromUserID ≠ req.ToUserID)
    (hb : getBalanceRow st fromUserID = some b)
    (hsuff : ¬ b < req.Amount) :
    (Transfer st fromUserID req).locks = [fromUserID, req.ToUserID] := by
  have hpos : 0 < req.Amount := by
    have := (transferRequest_validate_ok req).mp hv
    exact lt_of_not_le this.2.1
  have hval := newTransfer_valid fromUserID req.ToUserID req.Amount req.Description
    hne hpos
  have hset := canTransition_ok_iff
    (NewTransferTransaction fromUserID req.ToUserID req.Amount req.Description)
    StatusCompleted
  simp [Transfer, hv, hne, hval, WithTransaction, transferBody, hb, hsuff, SetStatus]
  cases hc : CanTransition
      (NewTransferTransaction fromUserID req.ToUserID req.Amount req.Description)
      StatusCompleted with
  | error e =>
    exfalso
    have : CanTransition
        (NewTransferTransaction fromUserID req.ToUserID req.Amount req.Description)
        StatusCompleted = .ok () := by
      refine hset.mpr ⟨rfl, Or.inl rfl⟩
    rw [this] at hc
    exact Except.noConfusion hc
  | ok _ => simp [hc]

/-- Witness for the amended C3 at a concrete state: sender 2, recipient 1,
sufficient funds, locks `[2, 1]`. -/
theorem transfer_locks_sender_first_witness :
    (Transfer { balances := [(1, 0), (2, 50)], transactions := [], history := [],
                nextTxId := 1 } 2 { ToUserID := 1, Amount := 7, Description := "x" }).locks
      = [2, 1] := by
  exact transfer_locks_sender_first _ 2 _ 50 rfl (by decide) rfl (by decide)

/-!
## SQL statement splitter

Embedded from `splitSQLStatements` in
`internal/migration/runner_execution.go`.  The Go function is an index
loop over the bytes of the input with mutable flags; each iteration of
that loop becomes one step of the recursion below, consuming the bytes
the iteration advances over.  The `inSingle` flag of the source is only
ever true inside the inner loop of the quote branch (the outer loop can
only observe it as false: the inner loop either clears it or exhausts the
input), so that inner loop is the helper `consumeSingle` and the flag is
not part of the recursion state. -/

/-- The tag-character test of the dollar-quote scanner
(letters, digits, underscore). -/
def isTagChar (c : Char) : Bool :=
  ('a' ≤ c && c ≤ 'z') || ('A' ≤ c && c ≤ 'Z') || ('0' ≤ c && c ≤ '9') || c = '_'

/-- The dollar-tag lookahead of the splitter: given the input after an
initial `$`, the full tag `$tag$` and the rest after its closing `$`, or
`none` when no closing `$` follows the run of tag characters. -/
def scanDollarTag (cs : List Char) : Option (List Char × List Char) :=
  match cs.dropWhile isTagChar with
  | c :: rest' =>
    if c = '$' then some ('$' :: cs.takeWhile isTagChar ++ ['$'], rest')
    else none
  | [] => none

theorem length_dropWhile_le {α : Type} (p : α → Bool) (l : List α) :
    (l.dropWhile p).length ≤ l.length := by
  induction l with
  | nil => simp
  | cons c cs ih =>
    by_cases h : p c <;> simp [List.dropWhile_cons, h] <;> omega

theorem scanDollarTag_length {cs tag r' : List Char}
    (h : scanDollarTag cs = some (tag, r')) : r'.length < cs.length + 1 := by
  unfold scanDollarTag at h
  rcases hd : cs.dropWhile isTagChar with _ | ⟨c, rest⟩ <;> rw [hd] at h
  · simp at h
  · have hlen := length_dropWhile_le isTagChar cs
    rw [hd] at hlen
    dsimp only at h
    by_cases hc : c = '$'
    · rw [if_pos hc] at h
      simp at h
      obtain ⟨-, hr⟩ := h
      subst hr
      simp at hlen
      omega
    · rw [if_neg hc] at h
      exact absurd h (by simp)

/-- The inner loop of the quote branch: consume the body of a
single-quoted string (with the doubled-quote `\x27\x27` escape),
returning the consumed characters (written to the builder) and the
remaining input.  A closing quote is a quote not followed by another
quote; an unterminated string consumes the whole input, as in the
source. -/
def consumeSingle : List Char → (List Char × List Char)
  | [] => ([], [])
  | c :: rest =>
    if c = '\'' then
      match rest with
      | c2 :: rest2 =>
        if c2 = '\'' then
          let w := consumeSingle rest2
          ('\'' :: '\'' :: w.1, w.2)
        else (['\''], rest)
      | [] => (['\''], [])
    else
      let w := consumeSingle rest
      (c :: w.1, w.2)

theorem consumeSingle_length (l : List Char) :
    (consumeSingle l).2.length ≤ l.length := by
  have H : ∀ n (l : List Char), l.length ≤ n →
      (consumeSingle l).2.length ≤ l.length := by
    intro n
    induction n with
    | zero =>
      intro l hl
      rcases l with _ | ⟨c, rest⟩
      · simp [consumeSingle]
      · simp at hl
    | succ n ih =>
      intro l hl
      rcases l with _ | ⟨c, rest⟩
      · simp [consumeSingle]
      · unfold consumeSingle
        by_cases hc : c = '\''
        · rw [if_pos hc]
          rcases rest with _ | ⟨c2, rest2⟩
          · simp
          · dsimp only
            by_cases h2 : c2 = '\''
            · rw [if_pos h2]
              have := ih rest2 (by simp at hl ⊢; omega)
              simp at this ⊢
              omega
            · rw [if_neg h2]
              simp
        · rw [if_neg hc]
          have := ih rest (by simp at hl ⊢; omega)
          simp at this ⊢
          omega
  exact H l.length l le_rfl

structure SplitState where
  buf : List Char
  out : List (List Char)
  inLineComment : Bool
  inBlockComment : Bool
  inDollar : Bool
  dollarTag : List Char
deriving Repr, DecidableEq

/-- One Go loop iteration per recursive step, in the source's guard order:
line comment, block comment, comment starts, single-quoted string,
dollar quote, top-level semicolon, default.  Each step consumes exactly
the bytes the corresponding iteration advances over.  At the end of the
input the trailing buffer is flushed if not whitespace-only. -/
def splitLoop (input : List Char) (st : SplitState) : List (List Char) :=
  match input with
  | [] =>
    if trimChars st.buf ≠ [] then st.out ++ [trimChars st.buf] else st.out
  | c :: rest =>
    if st.inLineComment then
      splitLoop rest { st with buf := st.buf ++ [c], inLineComment := c != '\n' }
    else if st.inBlockComment then
      if c = '*' ∧ rest.head? = some '/' then
        splitLoop rest.tail { st with buf := st.buf ++ ['*', '/'], inBlockComment := false }
      else
        splitLoop rest { st with buf := st.buf ++ [c] }
    else if ¬st.inDollar ∧ c = '-' ∧ rest.head? = some '-' then
      splitLoop rest.tail { st with buf := st.buf ++ ['-', '-'], inLineComment := true }
    else if ¬st.inDollar ∧ c = '/' ∧ rest.head? = some '*' then
      splitLoop rest.tail { st with buf := st.buf ++ ['/', '*'], inBlockComment := true }
    else if ¬st.inDollar ∧ c = '\'' then
      splitLoop (consumeSingle rest).2
        { st with buf := st.buf ++ '\'' :: (consumeSingle rest).1 }
    else if c = '$' ∧ (scanDollarTag rest).isSome then
      match hscan : scanDollarTag rest with
      | some (tag, r') =>
        if ¬st.inDollar then
          splitLoop r' { st with buf := st.buf ++ tag, inDollar := true, dollarTag := tag }
        else if tag = st.dollarTag then
          splitLoop r' { st with buf := st.buf ++ tag, inDollar := false, dollarTag := [] }
        else
          splitLoop r' { st with buf := st.buf ++ tag }
      | none => splitLoop rest { st with buf := st.buf ++ [c] }
    else if ¬st.inDollar ∧ c = ';' then
      splitLoop rest
        { st with
              buf := [],
              out := if trimChars st.buf ≠ [] then st.out ++ [trimChars st.buf]
                     else st.out }
    else
      splitLoop rest { st with buf := st.buf ++ [c] }
termination_by input.length
decreasing_by
  all_goals simp only [List.length_cons]
  all_goals
    first
      | (have hcs := consumeSingle_length cs; omega)
      | (have hsc := scanDollarTag_length hscan; omega)
      | (have htl := List.length_tail cs; omega)
      | omega

/-- The initial state of the split (all flags clear). -/
def initialSplitState : SplitState :=
  { buf := [], out := [], inLineComment := false, inBlockComment := false,
    inDollar := false, dollarTag := [] }

/-- `splitSQLStatements` from `internal/migration/runner_execution.go`. -/
def splitSQLStatements (sql : List Char) : List (List Char) :=
  splitLoop sql initialSplitState

theorem dropWhile_exists_not (p : Char → Bool) (l : List Char)
    (h : l.dropWhile p ≠ []) : ∃ c ∈ l.dropWhile p, p c = false := by
  induction l with
  | nil => simp at h
  | cons c cs ih =>
    by_cases hp : p c
    · simp only [List.dropWhile_cons, hp, if_true] at h ⊢
      simpa [hp] using ih h
    · refine ⟨c, ?_, by simpa using hp⟩
      simp [List.dropWhile_cons, hp]

theorem trimChars_ne_nil_exists (l : List Char) (h : trimChars l ≠ []) :
    ∃ c ∈ trimChars l, isSpaceGo c = false := by
  unfold trimChars at h ⊢
  have h2 : (l.dropWhile isSpaceGo).reverse.dropWhile isSpaceGo ≠ [] := by
    intro hx; rw [hx] at h; simp at h
  obtain ⟨c, hc, hcp⟩ := dropWhile_exists_not _ _ h2
  exact ⟨c, by simpa using hc, hcp⟩

theorem splitLoop_out_invariant (input : List Char) (st : SplitState)
    (h : ∀ s ∈ st.out, ∃ c ∈ s, isSpaceGo c = false) :
    ∀ s ∈ splitLoop input st, ∃ c ∈ s, isSpaceGo c = false := by
  revert h
  induction input, st using splitLoop.induct
  all_goals intro h
  all_goals rw [splitLoop]
  all_goals try simp_all [trimChars_ne_nil_exists]
  all_goals try ((repeat' split) <;> simp_all [trimChars_ne_nil_exists])
  next =>
    rintro s (hs | rfl)
    · exact h s hs
    · exact trimChars_ne_nil_exists _ (by assumption)
  next =>
    rename_i ih1 hne
    refine ih1 ?_
    rintro s (hs | rfl)
    · exact h s hs
    · exact trimChars_ne_nil_exists _ hne

theorem splitLoop_semicolon_in_line_comment (st : SplitState) (rest : List Char)
    (h : st.inLineComment = true) :
    splitLoop (';' :: rest) st = splitLoop rest { st with buf := st.buf ++ [';'] } := by
  rcases st with ⟨buf, out, il, ib, idl, dtag⟩
  simp only at h
  subst h
  rw [splitLoop]
  simp

theorem splitLoop_semicolon_in_block_comment (st : SplitState) (rest : List Char)
    (h1 : st.inLineComment = false) (h2 : st.inBlockComment = true) :
    splitLoop (';' :: rest) st = splitLoop rest { st with buf := st.buf ++ [';'] } := by
  rcases st with ⟨buf, out, il, ib, idl, dtag⟩
  simp only at h1 h2
  subst h1; subst h2
  rw [splitLoop]
  simp

theorem splitLoop_semicolon_in_dollar (st : SplitState) (rest : List Char)
    (h1 : st.inLineComment = false) (h2 : st.inBlockComment = false)
    (h3 : st.inDollar = true) :
    splitLoop (';' :: rest) st = splitLoop rest { st with buf := st.buf ++ [';'] } := by
  rcases st with ⟨buf, out, il, ib, idl, dtag⟩
  simp only at h1 h2 h3
  subst h1; subst h2; subst h3
  rw [splitLoop]
  simp [scanDollarTag]

theorem consumeSingle_closes (body tail : List Char)
    (hbody : ∀ c ∈ body, c ≠ '\'') (htail : tail.head? ≠ some '\'') :
    consumeSingle (body ++ '\'' :: tail) = (body ++ ['\''], tail) := by
  induction body with
  | nil =>
    rcases tail with _ | ⟨c2, t2⟩
    · simp [consumeSingle]
    · have hc2 : c2 ≠ '\'' := by
        intro hx; exact htail (by simp [hx])
      simp [consumeSingle, hc2]
  | cons b bs ih =>
    have hb : b ≠ '\'' := hbody b (List.mem_cons_self _ _)
    have ih' := ih (fun c hc => hbody c (List.mem_cons_of_mem _ hc))
    simp only [List.cons_append]
    rw [consumeSingle.eq_def]
    simp [hb, ih']

theorem splitLoop_quote_step (st : SplitState) (rest : List Char)
    (h1 : st.inLineComment = false) (h2 : st.inBlockComment = false)
    (h3 : st.inDollar = false) :
    splitLoop ('\'' :: rest) st
      = splitLoop (consumeSingle rest).2
          { st with buf := st.buf ++ '\'' :: (consumeSingle rest).1 } := by
  rcases st with ⟨buf, out, il, ib, idl, dtag⟩
  simp only at h1 h2 h3
  subst h1; subst h2; subst h3
  rw [splitLoop]
  simp

theorem splitLoop_semicolon_top_level (st : SplitState) (rest : List Char)
    (h1 : st.inLineComment = false) (h2 : st.inBlockComment = false)
    (h3 : st.inDollar = false) :
    splitLoop (';' :: rest) st
      = splitLoop rest
          { st with
                buf := [],
                out := if trimChars st.buf ≠ [] then st.out ++ [trimChars st.buf]
                       else st.out } := by
  rcases st with ⟨buf, out, il, ib, idl, dtag⟩
  simp only at h1 h2 h3
  subst h1; subst h2; subst h3
  rw [splitLoop]
  simp [scanDollarTag]

theorem splitLoop_dollar_open (st : SplitState) (rest tag r' : List Char)
    (h1 : st.inLineComment = false) (h2 : st.inBlockComment = false)
    (h3 : st.inDollar = false) (hscan : scanDollarTag rest = some (tag, r')) :
    splitLoop ('$' :: rest) st
      = splitLoop r' { st with buf := st.buf ++ tag, inDollar := true,
                               dollarTag := tag } := by
  rcases st with ⟨buf, out, il, ib, idl, dtag⟩
  simp only at h1 h2 h3
  subst h1; subst h2; subst h3
  rw [splitLoop]
  repeat' split <;> simp_all

theorem splitLoop_dollar_nonmatching (st : SplitState) (rest tag r' : List Char)
    (h1 : st.inLineComment = false) (h2 : st.inBlockComment = false)
    (h3 : st.inDollar = true) (hscan : scanDollarTag rest = some (tag, r'))
    (hne : tag ≠ st.dollarTag) :
    splitLoop ('$' :: rest) st = splitLoop r' { st with buf := st.buf ++ tag } := by
  rcases st with ⟨buf, out, il, ib, idl, dtag⟩
  simp only at h1 h2 h3 hne
  subst h1; subst h2; subst h3
  rw [splitLoop]
  repeat' split <;> simp_all

theorem splitLoop_dollar_closing (st : SplitState) (rest r' : List Char)
    (h1 : st.inLineComment = false) (h2 : st.inBlockComment = false)
    (h3 : st.inDollar = true)
    (hscan : scanDollarTag rest = some (st.dollarTag, r')) :
    splitLoop ('$' :: rest) st
      = splitLoop r' { st with buf := st.buf ++ st.dollarTag, inDollar := false,
                               dollarTag := [] } := by
  rcases st with ⟨buf, out, il, ib, idl, dtag⟩
  simp only at h1 h2 h3 hscan
  subst h1; subst h2; subst h3
  rw [splitLoop]
  repeat' split <;> simp_all

/-- C8: the splitter splits exactly at top-level semicolons and drops
whitespace-only statements.  Conjunct by conjunct: (1) no output statement
is empty or whitespace-only; a `;` read (2) inside a `--` line comment,
(3) inside a `/* ... */` block comment, or (4) inside an open
dollar-quoted body is appended to the current statement buffer and never
emits a statement; (5) the single-quote reader consumes a quoted body up
to its closing quote (`\x27\x27` being the escape), so a `;` inside it is
buffered by (6), the quote step, which emits nothing; (7) at top level a
`$tag$` opens a dollar body; (8) a dollar tag different from the opening
tag does not close the body; (9) the matching tag closes it; and (10) a
top-level `;` emits exactly the trimmed buffer, dropped when it is
whitespace-only. -/
theorem splitSQLStatements_spec :
    (∀ (sql : List Char), ∀ s ∈ splitSQLStatements sql, ∃ c ∈ s, isSpaceGo c = false)
    ∧ (∀ (st : SplitState) (rest : List Char), st.inLineComment = true →
        splitLoop (';' :: rest) st = splitLoop rest { st with buf := st.buf ++ [';'] })
    ∧ (∀ (st : SplitState) (rest : List Char),
        st.inLineComment = false → st.inBlockComment = true →
        splitLoop (';' :: rest) st = splitLoop rest { st with buf := st.buf ++ [';'] })
    ∧ (∀ (st : SplitState) (rest : List Char),
        st.inLineComment = false → st.inBlockComment = false → st.inDollar = true →
        splitLoop (';' :: rest) st = splitLoop rest { st with buf := st.buf ++ [';'] })
    ∧ (∀ (body tail : List Char), (∀ c ∈ body, c ≠ '\'') → tail.head? ≠ some '\'' →
        consumeSingle (body ++ '\'' :: tail) = (body ++ ['\''], tail))
    ∧ (∀ (st : SplitState) (rest : List Char),
        st.inLineComment = false → st.inBlockComment = false → st.inDollar = false →
        splitLoop ('\'' :: rest) st
          = splitLoop (consumeSingle rest).2
              { st with buf := st.buf ++ '\'' :: (consumeSingle rest).1 })
    ∧ (∀ (st : SplitState) (rest tag r' : List Char),
        st.inLineComment = false → st.inBlockComment = false → st.inDollar = false →
        scanDollarTag rest = some (tag, r') →
        splitLoop ('$' :: rest) st
          = splitLoop r' { st with buf := st.buf ++ tag, inDollar := true,
                                   dollarTag := tag })
    ∧ (∀ (st : SplitState) (rest tag r' : List Char),
        st.inLineComment = false → st.inBlockComment = false → st.inDollar = true →
        scanDollarTag rest = some (tag, r') → tag ≠ st.dollarTag →
        splitLoop ('$' :: rest) st = splitLoop r' { st with buf := st.buf ++ tag })
    ∧ (∀ (st : SplitState) (rest r' : List Char),
        st.inLineComment = false → st.inBlockComment = false → st.inDollar = true →
        scanDollarTag rest = some (st.dollarTag, r') →
        splitLoop ('$' :: rest) st
          = splitLoop r' { st with buf := st.buf ++ st.dollarTag, inDollar := false,
                                   dollarTag := [] })
    ∧ (∀ (st : SplitState) (rest : List Char),
        st.inLineComment = false → st.inBlockComment = false → st.inDollar = false →
        splitLoop (';' :: rest) st
          = splitLoop rest
              { st with
                    buf := [],
                    out := if trimChars st.buf ≠ [] then st.out ++ [trimChars st.buf]
                           else st.out }) := by
  refine ⟨?_, splitLoop_semicolon_in_line_comment, splitLoop_semicolon_in_block_comment,
    splitLoop_semicolon_in_dollar, consumeSingle_closes, splitLoop_quote_step,
    splitLoop_dollar_open, splitLoop_dollar_nonmatching, splitLoop_dollar_closing,
    splitLoop_semicolon_top_level⟩
  intro sql
  exact splitLoop_out_invariant sql initialSplitState (by simp [initialSplitState])

/-- Witness for C8 at concrete inputs: the split of
`SELECT 'a;b'; ; X` contains no whitespace-only statement; a concrete
in-line-comment state buffers a semicolon; and a concrete top-level state
emits its trimmed buffer at a semicolon. -/
theorem splitSQLStatements_spec_witness :
    (∃ c ∈ "SELECT 'a;b'".toList, isSpaceGo c = false)
    ∧ splitLoop (';' :: "x".toList)
        { buf := "--c".toList, out := [], inLineComment := true,
          inBlockComment := false, inDollar := false, dollarTag := [] }
      = splitLoop "x".toList
          { buf := "--c;".toList, out := [], inLineComment := true,
            inBlockComment := false, inDollar := false, dollarTag := [] }
    ∧ splitLoop (';' :: "Y".toList)
        { buf := " A ".toList, out := [], inLineComment := false,
          inBlockComment := false, inDollar := false, dollarTag := [] }
      = splitLoop "Y".toList
          { buf := [], out := ["A".toList], inLineComment := false,
            inBlockComment := false, inDollar := false, dollarTag := [] } := by
  refine ⟨?_, ?_, ?_⟩
  · refine splitSQLStatements_spec.1 "SELECT 'a;b'; ; X".toList "SELECT 'a;b'".toList ?_
    simp [splitSQLStatements, splitLoop, initialSplitState, scanDollarTag, consumeSingle,
      trimChars, isSpaceGo]
  · have h := splitSQLStatements_spec.2.1
      { buf := "--c".toList, out := [], inLineComment := true,
        inBlockComment := false, inDollar := false, dollarTag := [] } "x".toList rfl
    simpa using h
  · have h := splitSQLStatements_spec.2.2.2.2.2.2.2.2.2
      { buf := " A ".toList, out := [], inLineComment := false,
        inBlockComment := false, inDollar := false, dollarTag := [] } "Y".toList rfl rfl rfl
    rw [h]
    simp [trimChars, isSpaceGo]

end PaymentApi
